import Mathlib

/-!
Verification of the bounding-box utilities of microsoft/ComputerVision.

Shallow embedding of `utils_cv/detection/bbox.py` (`_Bbox`, `AnnotationBbox`)
and of `get_bounding_boxes` from `utils_cv/detection/model.py`.

Coordinates are modelled as integers; the Python constructor applies
`int(round(float(x)))` to each coordinate, which is the identity on integer
inputs, so the constructors below take `Int` arguments directly.
-/

/-- The rectangle record of `_Bbox` (fields `left`, `top`, `right`, `bottom`). -/
structure _Bbox where
  left : Int
  top : Int
  right : Int
  bottom : Int
deriving Repr, DecidableEq

namespace _Bbox

/-- Class constant `MAX_VALID_DIM = 100000`. -/
def MAX_VALID_DIM : Int := 100000

/-- Embeds `_Bbox.standardize`: sets `left`/`top` to the min and `right`/`bottom`
to the max of the corresponding coordinate pair. -/
def standardize (b : _Bbox) : _Bbox :=
  { left := min b.left b.right
    top := min b.top b.bottom
    right := max b.left b.right
    bottom := max b.top b.bottom }

/-- Embeds `_Bbox.__init__(left, top, right, bottom)`: stores the four
coordinates and then calls `standardize`. -/
def init (left top right bottom : Int) : _Bbox :=
  standardize { left := left, top := top, right := right, bottom := bottom }

/-- Embeds the classmethod `_Bbox.from_array(arr)`, reading
`arr[0], arr[1], arr[2], arr[3]`; `none` models the `IndexError` raised
when the list has fewer than four elements. -/
def from_array : List Int → Option _Bbox
  | left :: top :: right :: bottom :: _ => some (init left top right bottom)
  | _ => none

/-- Embeds the classmethod `_Bbox.from_array_xywh(arr)`, which builds
`_Bbox(arr[0], arr[1], arr[0] + arr[2], arr[1] + arr[3])`. -/
def from_array_xywh : List Int → Option _Bbox
  | left :: top :: w :: h :: _ => some (init left top (left + w) (top + h))
  | _ => none

/-- Embeds `_Bbox.rect()`: the list `[left, top, right, bottom]`. -/
def rect (b : _Bbox) : List Int := [b.left, b.top, b.right, b.bottom]

/-- Embeds `_Bbox.width()`: computes `right - left + 1` and asserts it is
nonnegative; `none` models the `AssertionError`. -/
def width (b : _Bbox) : Option Int :=
  let w := b.right - b.left + 1
  if 0 ≤ w then some w else none

/-- Embeds `_Bbox.height()`: computes `bottom - top + 1` and asserts it is
nonnegative; `none` models the `AssertionError`. -/
def height (b : _Bbox) : Option Int :=
  let h := b.bottom - b.top + 1
  if 0 ≤ h then some h else none

/-- Embeds `_Bbox.surface_area()`: `width() * height()`, propagating an
assertion failure from either call. -/
def surface_area (b : _Bbox) : Option Int := do
  let w ← b.width
  let h ← b.height
  pure (w * h)

/-- Embeds `_Bbox.get_overlap_bbox(bbox)`: intersection coordinates via
max of lefts/tops and min of rights/bottoms; returns `none` ("no overlap")
when `overlap_left > overlap_right` or `overlap_top > overlap_bottom`,
otherwise a freshly constructed `_Bbox` (which standardizes). -/
def get_overlap_bbox (self bbox : _Bbox) : Option _Bbox :=
  let overlap_left := max self.left bbox.left
  let overlap_top := max self.top bbox.top
  let overlap_right := min self.right bbox.right
  let overlap_bottom := min self.bottom bbox.bottom
  if overlap_left > overlap_right ∨ overlap_top > overlap_bottom then
    none
  else
    some (init overlap_left overlap_top overlap_right overlap_bottom)

/-- State-passing variant of `get_overlap_bbox`, returning also the final
state of the two operand objects. The method body only reads the operands
through `rect()` and local variables and constructs a new `_Bbox`, so the
operands are returned as they were. -/
def get_overlap_bbox_st (self bbox : _Bbox) : Option _Bbox × _Bbox × _Bbox :=
  let overlap_left := max self.left bbox.left
  let overlap_top := max self.top bbox.top
  let overlap_right := min self.right bbox.right
  let overlap_bottom := min self.bottom bbox.bottom
  if overlap_left > overlap_right ∨ overlap_top > overlap_bottom then
    (none, self, bbox)
  else
    (some (init overlap_left overlap_top overlap_right overlap_bottom),
      self, bbox)

/-- Embeds `_Bbox.crop(max_width, max_height)`: clamps `left` and `right`
into `[0, max_width]`, `top` and `bottom` into `[0, max_height]`, then
standardizes (the method also returns `self`). -/
def crop (b : _Bbox) (max_width max_height : Int) : _Bbox :=
  standardize
    { left := min (max b.left 0) max_width
      top := min (max b.top 0) max_height
      right := min (max b.right 0) max_width
      bottom := min (max b.bottom 0) max_height }

/-- Python `min` over a nonempty list (the `[]` case is unreachable from
`rect()`, which always has four elements). -/
def listMin : List Int → Int
  | [] => 0
  | x :: xs => xs.foldl min x

/-- Python `max` over a nonempty list (the `[]` case is unreachable from
`rect()`, which always has four elements). -/
def listMax : List Int → Int
  | [] => 0
  | x :: xs => xs.foldl max x

/-- Embeds `_Bbox.is_valid()`: `False` when `left ≥ right` or `top ≥ bottom`,
or when `min(rect()) < -MAX_VALID_DIM` or `max(rect()) > MAX_VALID_DIM`;
`True` otherwise. -/
def is_valid (b : _Bbox) : Bool :=
  if b.left ≥ b.right ∨ b.top ≥ b.bottom then false
  else if listMin b.rect < -MAX_VALID_DIM ∨ listMax b.rect > MAX_VALID_DIM then false
  else true

/-- The standardization invariant the spec states for constructed boxes. -/
def Standardized (b : _Bbox) : Prop :=
  b.left ≤ b.right ∧ b.top ≤ b.bottom

instance (b : _Bbox) : Decidable (Standardized b) :=
  inferInstanceAs (Decidable (_ ∧ _))

end _Bbox

/-- Record for `AnnotationBbox`: a `_Bbox` plus the metadata fields set by
`set_meta`. `im_path` and `label_name` are `Option String` because Python
allows the value `None` for them. -/
structure AnnotationBbox extends _Bbox where
  label_idx : Int
  im_path : Option String
  label_name : Option String
deriving Repr, DecidableEq

namespace AnnotationBbox

/-- Embeds the call `bbox.set_meta(**kwargs)` from `AnnotationBbox.from_array`.
The source signature `set_meta(self, label_idx, im_path, label_name)` has no
default values, so Python raises a `TypeError` whenever any of the three
keyword arguments is absent from `kwargs`; an absent keyword is modelled as
`none` in the outer `Option` of each parameter. -/
def set_meta (b : _Bbox) (label_idx : Option Int)
    (im_path label_name : Option (Option String)) :
    Except String AnnotationBbox :=
  match label_idx, im_path, label_name with
  | some li, some ip, some ln =>
      .ok { to_Bbox := b, label_idx := li, im_path := ip, label_name := ln }
  | _, _, _ =>
      .error "TypeError: set_meta() missing required positional argument"

/-- Embeds `AnnotationBbox.__init__`: builds the base rectangle, then calls
`set_meta(label_idx, im_path, label_name)` with all three arguments bound
(the constructor defaults `im_path` and `label_name` to `None`). -/
def init (left top right bottom : Int) (label_idx : Int)
    (im_path label_name : Option String) : AnnotationBbox :=
  { to_Bbox := _Bbox.init left top right bottom
    label_idx := label_idx
    im_path := im_path
    label_name := label_name }

/-- Embeds the classmethod `AnnotationBbox.from_array(arr, **kwargs)`: builds
the base box from the array, re-tags its runtime class, then calls
`set_meta(**kwargs)`. The `.error` results model the `IndexError` from the
base `from_array` and the `TypeError` from `set_meta`. -/
def from_array (arr : List Int) (label_idx : Option Int)
    (im_path label_name : Option (Option String)) :
    Except String AnnotationBbox :=
  match _Bbox.from_array arr with
  | none => .error "IndexError: list index out of range"
  | some bbox => set_meta bbox label_idx im_path label_name

end AnnotationBbox

/-- Record for the prediction `pred[0]` consumed by `get_bounding_boxes` in
`utils_cv/detection/model.py`: the `labels`, `boxes` and `scores` entries as
lists. Scores are floats in the source; the function only compares them with
the threshold, so they are modelled as rationals. -/
structure PredOutput where
  labels : List Int
  boxes : List (List Int)
  scores : List ℚ
deriving Repr, DecidableEq

/-- Embeds `get_bounding_boxes(pred, threshold)`: iterates over
`zip(pred_labels, pred_boxes, pred_scores)` and appends the label and the box
of every entry whose `score > threshold` to the qualified lists. -/
def get_bounding_boxes (pred : PredOutput) (threshold : ℚ) :
    List Int × List (List Int) :=
  let pred_labels := pred.labels
  let pred_boxes := pred.boxes
  let pred_scores := pred.scores
  let zipped := pred_labels.zip (pred_boxes.zip pred_scores)
  zipped.foldl
    (fun qual entry =>
      if entry.2.2 > threshold then (qual.1 ++ [entry.1], qual.2 ++ [entry.2.1])
      else qual)
    ([], [])

namespace _Bbox

lemma standardize_standardized (b : _Bbox) : Standardized (standardize b) :=
  ⟨min_le_max, min_le_max⟩

lemma init_fields (l t r b : Int) :
    (init l t r b).left = min l r ∧ (init l t r b).top = min t b
    ∧ (init l t r b).right = max l r ∧ (init l t r b).bottom = max t b :=
  ⟨rfl, rfl, rfl, rfl⟩

end _Bbox

/-- C1: every construction of a box — from four coordinates, from a
`[left, top, right, bottom]` array, from a `[left, top, width, height]`
array, or by cropping — yields a box with `left ≤ right` and `top ≤ bottom`,
for every ordering of the inputs; inverted coordinates are swapped
(`left = min`, `right = max`, etc.) rather than rejected. -/
theorem construction_standardizes :
    (∀ l t r b : Int, _Bbox.Standardized (_Bbox.init l t r b)
      ∧ (_Bbox.init l t r b).left = min l r ∧ (_Bbox.init l t r b).top = min t b
      ∧ (_Bbox.init l t r b).right = max l r
      ∧ (_Bbox.init l t r b).bottom = max t b)
    ∧ (∀ (arr : List Int) (bx : _Bbox),
        _Bbox.from_array arr = some bx → _Bbox.Standardized bx)
    ∧ (∀ (arr : List Int) (bx : _Bbox),
        _Bbox.from_array_xywh arr = some bx → _Bbox.Standardized bx)
    ∧ (∀ (bx : _Bbox) (mw mh : Int), _Bbox.Standardized (bx.crop mw mh)) := by
  refine ⟨?_, ?_, ?_, ?_⟩
  · intro l t r b
    exact ⟨_Bbox.standardize_standardized _, rfl, rfl, rfl, rfl⟩
  · intro arr bx h
    rcases arr with _ | ⟨l, arr⟩; · exact absurd h (by simp [_Bbox.from_array])
    rcases arr with _ | ⟨t, arr⟩; · exact absurd h (by simp [_Bbox.from_array])
    rcases arr with _ | ⟨r, arr⟩; · exact absurd h (by simp [_Bbox.from_array])
    rcases arr with _ | ⟨b, arr⟩; · exact absurd h (by simp [_Bbox.from_array])
    have hbx : _Bbox.init l t r b = bx := by
      simpa [_Bbox.from_array] using h
    exact hbx ▸ _Bbox.standardize_standardized _
  · intro arr bx h
    rcases arr with _ | ⟨l, arr⟩; · exact absurd h (by simp [_Bbox.from_array_xywh])
    rcases arr with _ | ⟨t, arr⟩; · exact absurd h (by simp [_Bbox.from_array_xywh])
    rcases arr with _ | ⟨w, arr⟩; · exact absurd h (by simp [_Bbox.from_array_xywh])
    rcases arr with _ | ⟨ht, arr⟩; · exact absurd h (by simp [_Bbox.from_array_xywh])
    have hbx : _Bbox.init l t (l + w) (t + ht) = bx := by
      simpa [_Bbox.from_array_xywh] using h
    exact hbx ▸ _Bbox.standardize_standardized _
  · intro bx mw mh
    exact _Bbox.standardize_standardized _

/-- Witness for C1 at concrete inputs, with inverted coordinates. -/
theorem construction_standardizes_witness :
    _Bbox.Standardized (_Bbox.init 100 1000 0 10)
    ∧ _Bbox.Standardized (_Bbox.init 5 6 1 2) :=
  ⟨(construction_standardizes.1 100 1000 0 10).1,
    construction_standardizes.2.1 [5, 6, 1, 2] (_Bbox.init 5 6 1 2) (by decide)⟩

/-- C2: on a standardized box, `width()` returns `right - left + 1` and
`height()` returns `bottom - top + 1` (the assertions pass), and any value
either method returns is nonnegative. -/
theorem width_height_formulas (bx : _Bbox) (h : _Bbox.Standardized bx) :
    bx.width = some (bx.right - bx.left + 1)
    ∧ bx.height = some (bx.bottom - bx.top + 1)
    ∧ (∀ w, bx.width = some w → 0 ≤ w)
    ∧ (∀ ht, bx.height = some ht → 0 ≤ ht) := by
  obtain ⟨h1, h2⟩ := h
  have hw : (0 : Int) ≤ bx.right - bx.left + 1 := by omega
  have hh : (0 : Int) ≤ bx.bottom - bx.top + 1 := by omega
  refine ⟨by simp [_Bbox.width, hw], by simp [_Bbox.height, hh], ?_, ?_⟩
  · intro w hsome
    simp [_Bbox.width, hw] at hsome
    omega
  · intro ht hsome
    simp [_Bbox.height, hh] at hsome
    omega

/-- Witness for C2 at the box constructed from (0, 10, 100, 1000). -/
theorem width_height_formulas_witness :
    (_Bbox.init 0 10 100 1000).width
      = some ((_Bbox.init 0 10 100 1000).right - (_Bbox.init 0 10 100 1000).left + 1) :=
  (width_height_formulas (_Bbox.init 0 10 100 1000) (by decide)).1

/-- C3: evaluation of the golden fixture `Bbox(0, 10, 100, 1000)`: the code
computes `width() = 101`, `height() = 991` and `surface_area() = 100091`
(formulas with `+ 1`), not the 100 / 990 / 99000 asserted by the claim and
by the repository test `test__bbox_basic_funcs`. -/
theorem golden_fixture_values :
    (_Bbox.init 0 10 100 1000).width = some 101
    ∧ (_Bbox.init 0 10 100 1000).height = some 991
    ∧ (_Bbox.init 0 10 100 1000).surface_area = some 100091
    ∧ (_Bbox.init 0 10 100 1000).width ≠ some 100
    ∧ (_Bbox.init 0 10 100 1000).height ≠ some 990
    ∧ (_Bbox.init 0 10 100 1000).surface_area ≠ some 99000 := by
  decide

lemma get_overlap_bbox_eq (a b : _Bbox) :
    a.get_overlap_bbox b =
      if min a.right b.right < max a.left b.left
          ∨ min a.bottom b.bottom < max a.top b.top then none
      else some (_Bbox.init (max a.left b.left) (max a.top b.top)
        (min a.right b.right) (min a.bottom b.bottom)) := rfl

/-- C4: `get_overlap_bbox` returns `none` exactly when
`max(lefts) > min(rights)` or `max(tops) > min(bottoms)`; any returned box
is the standardized box constructed from `(max lefts, max tops, min rights,
min bottoms)`; and the two concrete fixtures from the spec evaluate as
claimed. The function is total, so it never raises. -/
theorem get_overlap_bbox_spec (a b : _Bbox) :
    (a.get_overlap_bbox b = none ↔
      (min a.right b.right < max a.left b.left
        ∨ min a.bottom b.bottom < max a.top b.top))
    ∧ (∀ c, a.get_overlap_bbox b = some c →
        c = _Bbox.init (max a.left b.left) (max a.top b.top)
              (min a.right b.right) (min a.bottom b.bottom)
        ∧ _Bbox.Standardized c)
    ∧ (_Bbox.init 0 10 100 1000).get_overlap_bbox (_Bbox.init 0 500 100 2000)
        = some (_Bbox.init 0 500 100 1000)
    ∧ (_Bbox.init 0 10 100 1000).get_overlap_bbox (_Bbox.init 200 10 300 1000)
        = none := by
  refine ⟨?_, ?_, by decide, by decide⟩
  · rw [get_overlap_bbox_eq]
    by_cases hc : min a.right b.right < max a.left b.left
        ∨ min a.bottom b.bottom < max a.top b.top
    · rw [if_pos hc]
      exact iff_of_true rfl hc
    · rw [if_neg hc]
      exact iff_of_false (by simp) hc
  · intro c hsome
    rw [get_overlap_bbox_eq] at hsome
    by_cases hc : min a.right b.right < max a.left b.left
        ∨ min a.bottom b.bottom < max a.top b.top
    · rw [if_pos hc] at hsome
      exact absurd hsome (by simp)
    · rw [if_neg hc] at hsome
      have heq := Option.some.inj hsome
      exact ⟨heq.symm, heq ▸ _Bbox.standardize_standardized _⟩

/-- Witness for C4: the overlap of the two concrete fixtures is the
standardized intersection box. -/
theorem get_overlap_bbox_spec_witness :
    _Bbox.Standardized (_Bbox.init 0 500 100 1000) := by
  have h := get_overlap_bbox_spec (_Bbox.init 0 10 100 1000)
    (_Bbox.init 0 500 100 2000)
  exact (h.2.1 (_Bbox.init 0 500 100 1000) (by decide)).2

/-- C5: evaluation of `crop(max_width = 10, max_height = 10)` on
`Bbox(0, 10, 100, 1000)`: the code clamps every coordinate into the ranges
`[0, 10]`, producing `(left, top, right, bottom) = (0, 10, 10, 10)`; the
bottom is 10, not the 20 asserted by the claim and by the repository test
`test__bbox_crop`. -/
theorem crop_fixture_values :
    (_Bbox.init 0 10 100 1000).crop 10 10
      = { left := 0, top := 10, right := 10, bottom := 10 }
    ∧ ((_Bbox.init 0 10 100 1000).crop 10 10).bottom ≠ 20 := by
  decide

/-- C6: `is_valid()` is `true` exactly when `left < right`, `top < bottom`,
and every coordinate has absolute value at most `MAX_VALID_DIM = 100000`;
in particular it is `false` on `Bbox(0, 0, 0, 0)`. -/
theorem is_valid_spec (bx : _Bbox) :
    (bx.is_valid = true ↔
      (bx.left < bx.right ∧ bx.top < bx.bottom
        ∧ ∀ c ∈ bx.rect, |c| ≤ _Bbox.MAX_VALID_DIM))
    ∧ (_Bbox.init 0 0 0 0).is_valid = false := by
  refine ⟨?_, by decide⟩
  simp only [_Bbox.is_valid]
  split_ifs with hA hB
  · simp only [Bool.false_eq_true, false_iff]
    intro hcontra
    simp [_Bbox.rect, abs_le, _Bbox.MAX_VALID_DIM] at hcontra
    omega
  · simp only [Bool.false_eq_true, false_iff]
    intro hcontra
    simp only [_Bbox.rect, _Bbox.listMin, _Bbox.listMax, List.foldl,
      _Bbox.MAX_VALID_DIM] at hB
    simp [_Bbox.rect, abs_le, _Bbox.MAX_VALID_DIM] at hcontra
    omega
  · simp only [true_iff]
    simp only [_Bbox.rect, _Bbox.listMin, _Bbox.listMax, List.foldl,
      _Bbox.MAX_VALID_DIM] at hA hB
    simp [_Bbox.rect, abs_le, _Bbox.MAX_VALID_DIM]
    omega

/-- Witness for C6: the reference box is valid. -/
theorem is_valid_spec_witness :
    (_Bbox.init 0 10 100 1000).is_valid = true :=
  (is_valid_spec (_Bbox.init 0 10 100 1000)).1.mpr (by decide)

lemma zip_components (preds : List (Int × List Int × ℚ)) :
    (preds.map (fun p => p.1)).zip
        ((preds.map (fun p => p.2.1)).zip (preds.map (fun p => p.2.2)))
      = preds := by
  induction preds with
  | nil => rfl
  | cons p ps ih =>
      simp only [List.map_cons, List.zip_cons_cons, ih]

lemma foldl_qualified (t : ℚ) (entries : List (Int × List Int × ℚ)) :
    ∀ acc : List Int × List (List Int),
      entries.foldl
        (fun qual entry =>
          if entry.2.2 > t then (qual.1 ++ [entry.1], qual.2 ++ [entry.2.1])
          else qual)
        acc
      = (acc.1 ++ (entries.filter (fun p => t < p.2.2)).map (fun p => p.1),
         acc.2 ++ (entries.filter (fun p => t < p.2.2)).map (fun p => p.2.1)) := by
  induction entries with
  | nil => intro acc; simp
  | cons e es ih =>
      intro acc
      by_cases hc : e.2.2 > t
      · rw [List.foldl_cons, if_pos hc, ih]
        simp [List.filter_cons, hc]
      · rw [List.foldl_cons, if_neg hc, ih]
        simp [List.filter_cons, hc]

/-- C7: `get_bounding_boxes` keeps exactly the entries whose score is
strictly greater than the threshold, as a filter that preserves the original
relative order; an entry whose score equals the threshold is dropped, so
when every score is at most the threshold the result is empty and when the
threshold is strictly below every score the full lists come back. -/
theorem get_bounding_boxes_spec (preds : List (Int × List Int × ℚ)) (t : ℚ) :
    get_bounding_boxes
        ⟨preds.map (fun p => p.1), preds.map (fun p => p.2.1),
          preds.map (fun p => p.2.2)⟩ t
      = ((preds.filter (fun p => t < p.2.2)).map (fun p => p.1),
         (preds.filter (fun p => t < p.2.2)).map (fun p => p.2.1))
    ∧ ((∀ p ∈ preds, p.2.2 ≤ t) →
        get_bounding_boxes
          ⟨preds.map (fun p => p.1), preds.map (fun p => p.2.1),
            preds.map (fun p => p.2.2)⟩ t = ([], []))
    ∧ ((∀ p ∈ preds, t < p.2.2) →
        get_bounding_boxes
          ⟨preds.map (fun p => p.1), preds.map (fun p => p.2.1),
            preds.map (fun p => p.2.2)⟩ t
          = (preds.map (fun p => p.1), preds.map (fun p => p.2.1))) := by
  have hmain :
      get_bounding_boxes
          ⟨preds.map (fun p => p.1), preds.map (fun p => p.2.1),
            preds.map (fun p => p.2.2)⟩ t
        = ((preds.filter (fun p => t < p.2.2)).map (fun p => p.1),
           (preds.filter (fun p => t < p.2.2)).map (fun p => p.2.1)) := by
    simp only [get_bounding_boxes, zip_components, foldl_qualified,
      List.nil_append]
  refine ⟨hmain, ?_, ?_⟩
  · intro hall
    rw [hmain]
    have hfil : preds.filter (fun p => t < p.2.2) = [] := by
      simp only [List.filter_eq_nil_iff, decide_eq_true_eq]
      intro p hp
      exact not_lt.mpr (hall p hp)
    rw [hfil]
    rfl
  · intro hall
    rw [hmain]
    have hfil : preds.filter (fun p => t < p.2.2) = preds := by
      rw [List.filter_eq_self]
      intro p hp
      exact decide_eq_true (hall p hp)
    rw [hfil]

/-- Witness for C7 on a two-entry prediction list with a threshold above both
scores. -/
theorem get_bounding_boxes_spec_witness :
    get_bounding_boxes ⟨[1, 2], [[0, 0, 1, 1], [2, 2, 3, 3]], [1, 2]⟩ 3
      = ([], []) :=
  (get_bounding_boxes_spec [(1, [0, 0, 1, 1], 1), (2, [2, 2, 3, 3], 2)] 3).2.1
    (by decide)

/-- C8: building a box from an arbitrarily ordered array
`[l, t, r, b]` and reading it back with `rect()` yields
`[min(l, r), min(t, b), max(l, r), max(t, b)]`. -/
theorem from_array_rect_round_trip (l t r b : Int) :
    (_Bbox.from_array [l, t, r, b]).map _Bbox.rect
      = some [min l r, min t b, max l r, max t b] := by
  simp only [_Bbox.from_array, Option.map_some]
  rfl

/-- C9: evaluation of `AnnotationBbox.from_array` on the test fixture: the
call fails when `label_idx` is missing, but it also fails when only
`label_idx` is supplied, because `set_meta(label_idx, im_path, label_name)`
has no default values; it succeeds only when all three keyword arguments are
present. -/
theorem annotation_from_array_meta :
    AnnotationBbox.from_array [0, 10, 100, 1000] none none none
      = .error "TypeError: set_meta() missing required positional argument"
    ∧ AnnotationBbox.from_array [0, 10, 100, 1000] (some 0) none none
      = .error "TypeError: set_meta() missing required positional argument"
    ∧ AnnotationBbox.from_array [0, 10, 100, 1000] (some 0) (some none)
        (some none)
      = .ok (AnnotationBbox.init 0 10 100 1000 0 none none) :=
  ⟨rfl, rfl, rfl⟩

/-- C10: the state-passing embedding of `get_overlap_bbox` leaves both
operand boxes exactly as they were and returns the same result as the pure
function: neither operand is mutated. -/
theorem get_overlap_bbox_frame (a b : _Bbox) :
    (a.get_overlap_bbox_st b).2.1 = a
    ∧ (a.get_overlap_bbox_st b).2.2 = b
    ∧ (a.get_overlap_bbox_st b).1 = a.get_overlap_bbox b := by
  simp only [_Bbox.get_overlap_bbox_st, _Bbox.get_overlap_bbox]
  by_cases hc : min a.right b.right < max a.left b.left
      ∨ min a.bottom b.bottom < max a.top b.top
  · rw [if_pos hc, if_pos hc]
    exact ⟨rfl, rfl, rfl⟩
  · rw [if_neg hc, if_neg hc]
    exact ⟨rfl, rfl, rfl⟩
